import Mathlib

/-!
# Hampter Link — verification of the mesh core

Shallow embedding of the Hampter Link peer-discovery / mesh-messaging core
(`main.py`, `config.py`, `src/networking/discovery.py`, `src/protocol/*.py`)
together with proofs about its tie-breaking, deduplication, framing,
heartbeat, discovery filtering, broadcast and TLS-configuration behaviour.

Bytes are modelled as `Nat` (values < 256 where it matters), Python `dict`s
as association lists with Python's update-or-append semantics, Python `set`s
as duplicate-free lists, and the asyncio callback machinery as explicit
state-transition functions.  External collaborator libraries (Python `ssl`,
`aioquic`, `json`) are modelled only through the configuration fields and
results the core actually touches; each such model is documented at its
definition.
-/

/-! ## Character / string utilities

`on_peer_found` (main.py lines 135-143) compares IP addresses with
`int(ipaddress.ip_address(...))` and falls back to Python string comparison
(`>` on `str`, lexicographic by code point) when parsing fails.  We model
the code-point comparison directly over `List Char`.
-/

/-- Two characters with the same code point are equal. -/
theorem char_toNat_inj {a b : Char} (h : a.toNat = b.toNat) : a = b :=
  Char.eq_of_val_eq (UInt32.ext h)

/-- Python `str` comparison: lexicographic on code points (`a < b`). -/
def charsLt : List Char → List Char → Bool
  | [], [] => false
  | [], _ :: _ => true
  | _ :: _, [] => false
  | a :: as, b :: bs =>
    if a.toNat < b.toNat then true
    else if b.toNat < a.toNat then false
    else charsLt as bs

/-- Python string `a < b` for Lean strings. -/
def pyStrLt (a b : String) : Bool := charsLt a.toList b.toList

theorem charsLt_asymm_eq : ∀ {x y : List Char},
    charsLt x y = false → charsLt y x = false → x = y
  | [], [], _, _ => rfl
  | [], _ :: _, h, _ => by simp [charsLt] at h
  | _ :: _, [], _, h => by simp [charsLt] at h
  | a :: as, b :: bs, h, h' => by
    simp only [charsLt] at h h'
    by_cases hab : a.toNat < b.toNat
    · simp [hab] at h
    · by_cases hba : b.toNat < a.toNat
      · simp [hba, hab] at h'
      · rw [if_neg hab, if_neg hba] at h
        rw [if_neg hba, if_neg hab] at h'
        have hq : a.toNat = b.toNat := by omega
        rw [char_toNat_inj hq, charsLt_asymm_eq h h']

theorem pyStrLt_asymm_eq {a b : String}
    (h : pyStrLt a b = false) (h' : pyStrLt b a = false) : a = b :=
  String.toList_inj.mp (charsLt_asymm_eq h h')

/-! ## IPv4 address parsing

Model of `int(ipaddress.ip_address(s))` for IPv4 dotted-quad input, as used
by the tie-break in main.py lines 138-139.  Python's `IPv4Address` splits on
`'.'`, requires exactly four octets, each an ASCII decimal string of 1-3
digits with no leading zero (except `"0"` itself) and value ≤ 255.  Inputs
that fail (including IPv6 textual forms, which are outside the 32-bit scope
the tie-break claim addresses) take the string-comparison fallback in the
code, which is how they are modelled here.
-/

/-- ASCII decimal digit (code points 48-57). -/
def isDig (c : Char) : Bool := 48 ≤ c.toNat && c.toNat ≤ 57

/-- Numeric value of an ASCII digit. -/
def digVal (c : Char) : Nat := c.toNat - 48

/-- Parse one IPv4 octet: 1-3 ASCII digits, no leading zero, value ≤ 255. -/
def parseOctet : List Char → Option Nat
  | [a] => if isDig a then some (digVal a) else none
  | [a, b] =>
    if isDig a && isDig b && decide (a ≠ '0') then
      some (10 * digVal a + digVal b)
    else none
  | [a, b, c] =>
    if isDig a && isDig b && isDig c && decide (a ≠ '0')
        && decide (100 * digVal a + 10 * digVal b + digVal c ≤ 255) then
      some (100 * digVal a + 10 * digVal b + digVal c)
    else none
  | _ => none

theorem isDig_bounds {c : Char} (h : isDig c = true) :
    48 ≤ c.toNat ∧ c.toNat ≤ 57 := by
  simpa [isDig, Bool.and_eq_true, decide_eq_true_eq] using h

theorem digVal_le {c : Char} (h : isDig c = true) : digVal c ≤ 9 := by
  have := isDig_bounds h
  unfold digVal
  omega

theorem digVal_inj {a b : Char} (ha : isDig a = true) (hb : isDig b = true)
    (h : digVal a = digVal b) : a = b := by
  have h1 := isDig_bounds ha
  have h2 := isDig_bounds hb
  refine char_toNat_inj ?_
  unfold digVal at h
  omega

theorem digVal_pos {a : Char} (ha : isDig a = true) (h : a ≠ '0') :
    1 ≤ digVal a := by
  have h1 := isDig_bounds ha
  have h48 : a.toNat ≠ 48 := by
    intro hc
    exact h (char_toNat_inj (by rw [hc]; rfl))
  unfold digVal
  omega

theorem parseOctet_cases {s : List Char} {n : Nat} (h : parseOctet s = some n) :
    (∃ a, s = [a] ∧ isDig a = true ∧ n = digVal a) ∨
    (∃ a b, s = [a, b] ∧ isDig a = true ∧ isDig b = true ∧ a ≠ '0' ∧
      n = 10 * digVal a + digVal b) ∨
    (∃ a b c, s = [a, b, c] ∧ isDig a = true ∧ isDig b = true ∧
      isDig c = true ∧ a ≠ '0' ∧
      n = 100 * digVal a + 10 * digVal b + digVal c ∧ n ≤ 255) := by
  match s with
  | [] => simp [parseOctet] at h
  | [a] =>
    left
    simp only [parseOctet] at h
    split at h
    · rename_i hc
      exact ⟨a, rfl, hc, (Option.some.inj h).symm⟩
    · exact absurd h (by simp)
  | [a, b] =>
    right; left
    simp only [parseOctet] at h
    split at h
    · rename_i hc
      simp only [Bool.and_eq_true, decide_eq_true_eq] at hc
      exact ⟨a, b, rfl, hc.1.1, hc.1.2, hc.2, (Option.some.inj h).symm⟩
    · exact absurd h (by simp)
  | [a, b, c] =>
    right; right
    simp only [parseOctet] at h
    split at h
    · rename_i hc
      simp only [Bool.and_eq_true, decide_eq_true_eq] at hc
      refine ⟨a, b, c, rfl, hc.1.1.1.1, hc.1.1.1.2, hc.1.1.2, hc.1.2,
        (Option.some.inj h).symm, ?_⟩
      rw [← Option.some.inj h] at *
      exact hc.2
    · exact absurd h (by simp)
  | _ :: _ :: _ :: _ :: _ => simp [parseOctet] at h

theorem parseOctet_le {s : List Char} {n : Nat} (h : parseOctet s = some n) :
    n ≤ 255 := by
  rcases parseOctet_cases h with ⟨a, _, ha, hn⟩ |
    ⟨a, b, _, ha, hb, _, hn⟩ | ⟨a, b, c, _, _, _, _, _, _, hle⟩
  · have := digVal_le ha
    omega
  · have := digVal_le ha
    have := digVal_le hb
    omega
  · exact hle

theorem parseOctet_inj {s t : List Char} {n : Nat}
    (hs : parseOctet s = some n) (ht : parseOctet t = some n) : s = t := by
  rcases parseOctet_cases hs with ⟨a, hse, ha, hn⟩ |
      ⟨a, b, hse, ha, hb, ha0, hn⟩ |
      ⟨a, b, c, hse, ha, hb, hc, ha0, hn, _⟩ <;>
    rcases parseOctet_cases ht with ⟨a', hte, ha', hn'⟩ |
      ⟨a', b', hte, ha', hb', ha0', hn'⟩ |
      ⟨a', b', c', hte, ha', hb', hc', ha0', hn', _⟩
  · subst hse hte
    rw [digVal_inj ha ha' (by omega)]
  · exfalso
    have := digVal_le ha
    have := digVal_le hb'
    have := digVal_pos ha' ha0'
    omega
  · exfalso
    have := digVal_le ha
    have := digVal_le hb'
    have := digVal_le hc'
    have := digVal_pos ha' ha0'
    omega
  · exfalso
    have := digVal_le ha'
    have := digVal_le hb
    have := digVal_pos ha ha0
    omega
  · subst hse hte
    have da := digVal_le ha
    have db := digVal_le hb
    have da' := digVal_le ha'
    have db' := digVal_le hb'
    have h1 : digVal a = digVal a' := by omega
    have h2 : digVal b = digVal b' := by omega
    rw [digVal_inj ha ha' h1, digVal_inj hb hb' h2]
  · exfalso
    have := digVal_le ha
    have := digVal_le hb
    have := digVal_le hb'
    have := digVal_le hc'
    have := digVal_pos ha' ha0'
    omega
  · exfalso
    have := digVal_le ha'
    have := digVal_le hb
    have := digVal_le hc
    have := digVal_pos ha ha0
    omega
  · exfalso
    have := digVal_le ha'
    have := digVal_le hb'
    have := digVal_le hb
    have := digVal_le hc
    have := digVal_pos ha ha0
    omega
  · subst hse hte
    have da := digVal_le ha
    have db := digVal_le hb
    have dc := digVal_le hc
    have da' := digVal_le ha'
    have db' := digVal_le hb'
    have dc' := digVal_le hc'
    have h1 : digVal a = digVal a' := by omega
    have h2 : digVal b = digVal b' := by omega
    have h3 : digVal c = digVal c' := by omega
    rw [digVal_inj ha ha' h1, digVal_inj hb hb' h2, digVal_inj hc hc' h3]

/-- Split a character list on `'.'` (Python `str.split('.')`). -/
def splitDots : List Char → List (List Char)
  | [] => [[]]
  | c :: rest =>
    let r := splitDots rest
    if c = '.' then [] :: r
    else
      match r with
      | [] => [[c]]
      | p :: ps => (c :: p) :: ps

/-- Rejoin parts with `'.'` (inverse of `splitDots`). -/
def joinDots : List (List Char) → List Char
  | [] => []
  | [p] => p
  | p :: q :: ps => p ++ '.' :: joinDots (q :: ps)

theorem splitDots_ne_nil : ∀ l : List Char, splitDots l ≠ []
  | [] => by simp [splitDots]
  | c :: rest => by
    simp only [splitDots]
    by_cases hc : c = '.'
    · simp [hc]
    · simp only [if_neg hc]
      match hr : splitDots rest with
      | [] => simp
      | p :: ps => simp

theorem joinDots_splitDots : ∀ l : List Char, joinDots (splitDots l) = l
  | [] => rfl
  | c :: rest => by
    have ih := joinDots_splitDots rest
    simp only [splitDots]
    by_cases hc : c = '.'
    · subst hc
      simp only [if_pos rfl]
      match hr : splitDots rest with
      | [] => exact absurd hr (splitDots_ne_nil rest)
      | q :: ps =>
        rw [hr] at ih
        simp [joinDots, ih]
    · simp only [if_neg hc]
      match hr : splitDots rest with
      | [] => exact absurd hr (splitDots_ne_nil rest)
      | p :: ps =>
        rw [hr] at ih
        match ps with
        | [] => simp [joinDots] at ih ⊢; exact ih
        | q :: ps' => simp [joinDots] at ih ⊢; rw [ih]

/-- The 32-bit value of an IPv4 address from its four octets. -/
def ipv4Val (a b c d : Nat) : Nat := ((a * 256 + b) * 256 + c) * 256 + d

/-- `int(ipaddress.ip_address(s))` for IPv4 dotted-quad strings: split on
`'.'`, require exactly four valid octets. -/
def parseIPv4 (s : String) : Option Nat :=
  match splitDots s.toList with
  | [o0, o1, o2, o3] =>
    match parseOctet o0, parseOctet o1, parseOctet o2, parseOctet o3 with
    | some a, some b, some c, some d => some (ipv4Val a b c d)
    | _, _, _, _ => none
  | _ => none

theorem parseIPv4_some {s : String} {v : Nat} (h : parseIPv4 s = some v) :
    ∃ o0 o1 o2 o3 a b c d,
      splitDots s.toList = [o0, o1, o2, o3] ∧
      parseOctet o0 = some a ∧ parseOctet o1 = some b ∧
      parseOctet o2 = some c ∧ parseOctet o3 = some d ∧
      v = ipv4Val a b c d := by
  unfold parseIPv4 at h
  split at h
  · rename_i o0 o1 o2 o3 hsplit
    split at h
    · rename_i a b c d h0 h1 h2 h3
      exact ⟨o0, o1, o2, o3, a, b, c, d, hsplit, h0, h1, h2, h3,
        (Option.some.inj h).symm⟩
    · exact absurd h (by simp)
  · exact absurd h (by simp)

theorem ipv4Val_inj {a b c d a' b' c' d' : Nat}
    (_ha : a ≤ 255) (hb : b ≤ 255) (hc : c ≤ 255) (hd : d ≤ 255)
    (_ha' : a' ≤ 255) (hb' : b' ≤ 255) (hc' : c' ≤ 255) (hd' : d' ≤ 255)
    (h : ipv4Val a b c d = ipv4Val a' b' c' d') :
    a = a' ∧ b = b' ∧ c = c' ∧ d = d' := by
  unfold ipv4Val at h
  refine ⟨by omega, by omega, by omega, by omega⟩

/-- Distinct strings never parse to the same IPv4 value: the dotted-quad
grammar (no leading zeros) is a canonical representation. -/
theorem parseIPv4_inj {s t : String} {v : Nat}
    (hs : parseIPv4 s = some v) (ht : parseIPv4 t = some v) : s = t := by
  obtain ⟨o0, o1, o2, o3, a, b, c, d, hsp, h0, h1, h2, h3, hv⟩ := parseIPv4_some hs
  obtain ⟨p0, p1, p2, p3, a', b', c', d', htp, g0, g1, g2, g3, hv'⟩ := parseIPv4_some ht
  obtain ⟨e1, e2, e3, e4⟩ := ipv4Val_inj (parseOctet_le h0) (parseOctet_le h1)
    (parseOctet_le h2) (parseOctet_le h3) (parseOctet_le g0) (parseOctet_le g1)
    (parseOctet_le g2) (parseOctet_le g3) (hv.symm.trans hv')
  subst e1 e2 e3 e4
  have q0 : o0 = p0 := parseOctet_inj h0 g0
  have q1 : o1 = p1 := parseOctet_inj h1 g1
  have q2 : o2 = p2 := parseOctet_inj h2 g2
  have q3 : o3 = p3 := parseOctet_inj h3 g3
  refine String.toList_inj.mp ?_
  have : splitDots s.toList = splitDots t.toList := by
    rw [hsp, htp, q0, q1, q2, q3]
  calc s.toList = joinDots (splitDots s.toList) := (joinDots_splitDots _).symm
    _ = joinDots (splitDots t.toList) := by rw [this]
    _ = t.toList := joinDots_splitDots _

/-! ## Mesh Registry / Node Orchestrator state (main.py `HamperLinkApp`)

`self.peers` is a Python dict keyed by peer IP (update-or-append semantics),
`self.connecting_ips` a Python set.  The asyncio callbacks become explicit
state-transition functions; the `Bool` returned by `on_peer_found` records
whether `asyncio.create_task(self.connect_quic(...))` was scheduled.
-/

/-- `"type": "client" | "server"` in a registry entry (main.py lines 108, 168). -/
inductive Role where
  | client
  | server
deriving DecidableEq, Repr

/-- One registry entry: main.py line 40
`{ "type": ..., "protocol": ..., "name": hostname }`.  `name` is
`info.get('hostname')` (possibly absent) for outbound entries and
`some "Unknown"` for inbound ones; the protocol object itself carries no
state the claims need. -/
structure PeerEntry where
  role : Role
  name : Option String
deriving DecidableEq, Repr

/-- The orchestrator's mutable registry state (main.py lines 41-42). -/
structure AppState where
  peers : List (String × PeerEntry)
  connecting : List String
deriving DecidableEq, Repr

/-- Python `ip in self.peers` (dict key membership). -/
def dictContains (k : String) (d : List (String × PeerEntry)) : Bool :=
  d.any (fun e => e.1 == k)

/-- Python `self.peers[ip] = v`: overwrite in place or append. -/
def dictInsert (k : String) (v : PeerEntry) :
    List (String × PeerEntry) → List (String × PeerEntry)
  | [] => [(k, v)]
  | e :: rest => if e.1 = k then (k, v) :: rest else e :: dictInsert k v rest

/-- Python `set.add`. -/
def setAdd (x : String) (s : List String) : List String :=
  if x ∈ s then s else s ++ [x]

/-- Python `set.discard`. -/
def setDiscard (x : String) (s : List String) : List String :=
  s.filter (fun y => y != x)

/-- The tie-break comparison of main.py lines 137-143: compare
`int(ipaddress.ip_address(cfg.ip_address))` against the announcement's
source IP; when either `int(...)` raises, the `except` branch compares the
raw strings.  Returns `true` when the node must stay passive (the code's
early `return`). -/
def tieBreakSkip (myIP peerIP : String) : Bool :=
  match parseIPv4 myIP, parseIPv4 peerIP with
  | some m, some p => decide (p < m)
  | some _, none => pyStrLt peerIP myIP
  | none, some _ => pyStrLt peerIP myIP
  | none, none => pyStrLt peerIP myIP

/-- main.py `HamperLinkApp.on_peer_found` (lines 135-151): tie-break, then
dedup against `self.peers` and `self.connecting_ips`; if both pass,
schedule `connect_quic` (returned flag).  The state is not mutated here. -/
def on_peer_found (myIP peerIP : String) (s : AppState) : AppState × Bool :=
  if tieBreakSkip myIP peerIP then (s, false)
  else if dictContains peerIP s.peers || decide (peerIP ∈ s.connecting) then
    (s, false)
  else (s, true)

/-- How one run of the `connect_quic` coroutine ends. -/
inductive ConnectOutcome where
  | established
  | failed
deriving DecidableEq, Repr

/-- main.py `HamperLinkApp.connect_quic` (lines 153-181), run to completion:
add the IP to `connecting_ips` (line 155); if the QUIC handshake completes,
`on_connected` (lines 166-173) inserts the registry entry keyed by the peer
IP; whether the connection later closes, times out or raises, the `finally`
(line 181) discards the IP from `connecting_ips`.  `hostname` is
`info.get('hostname')`. -/
def connect_quic (ip : String) (hostname : Option String)
    (o : ConnectOutcome) (s : AppState) : AppState :=
  let s1 : AppState := { s with connecting := setAdd ip s.connecting }
  let s2 : AppState :=
    match o with
    | .established =>
      { s1 with peers := dictInsert ip ⟨Role.client, hostname⟩ s1.peers }
    | .failed => s1
  { s2 with connecting := setDiscard ip s2.connecting }

/-- main.py `on_server_connect` (lines 102-112): on an accepted inbound
connection's handshake completion, insert a registry entry (name
`"Unknown"`) unless the IP is already present. -/
def on_server_connect (ip : String) (s : AppState) : AppState :=
  if dictContains ip s.peers then s
  else { s with peers := dictInsert ip ⟨Role.server, some "Unknown"⟩ s.peers }

/-- quic_server.py `HampterProtocol.quic_event_received`, the
`ConnectionTerminated` branch (lines 51-58): the class-level
`_on_disconnect_callback` is invoked when one is set, otherwise nothing
happens. -/
def quic_event_terminated (onDisconnect : Option (String → AppState → AppState))
    (peerIP : String) (s : AppState) : AppState :=
  match onDisconnect with
  | some cb => cb peerIP s
  | none => s

/-- main.py lines 114-116 assign only `HampterProtocol._on_message_callback`
and `HampterProtocol._on_connect_callback`; `_on_disconnect_callback` keeps
its class default `None` (quic_server.py line 17), and the client-side
`_on_disconnect_callback` likewise stays `None` (quic_client.py line 20). -/
def main_on_disconnect : Option (String → AppState → AppState) := none

/-- Deliver the same announcement `n` times (main.py `on_peer_found`),
counting how many `connect_quic` tasks get scheduled. -/
def announceN (myIP peerIP : String) (s : AppState) : Nat → AppState × Nat
  | 0 => (s, 0)
  | n + 1 =>
    let r := on_peer_found myIP peerIP s
    let rest := announceN myIP peerIP r.1 n
    (rest.1, (if r.2 then 1 else 0) + rest.2)

/-- Number of registry entries stored under key `k`. -/
def countKey (k : String) (d : List (String × PeerEntry)) : Nat :=
  (d.filter (fun e => e.1 == k)).length

/-- The registry keys are pairwise distinct (automatic for a Python dict). -/
def keysNodup (d : List (String × PeerEntry)) : Prop :=
  (d.map Prod.fst).Nodup

/-! ## Supporting lemmas about the registry operations -/

theorem dictContains_iff {k : String} {d : List (String × PeerEntry)} :
    dictContains k d = true ↔ k ∈ d.map Prod.fst := by
  induction d with
  | nil => simp [dictContains]
  | cons e rest ih =>
    simp only [dictContains, List.any_cons, Bool.or_eq_true, beq_iff_eq,
      List.map_cons, List.mem_cons]
    rw [show (List.any rest fun e => e.1 == k) = dictContains k rest from rfl, ih]
    constructor
    · rintro (h | h)
      · exact Or.inl h.symm
      · exact Or.inr h
    · rintro (h | h)
      · exact Or.inl h.symm
      · exact Or.inr h

theorem countKey_eq_zero {k : String} {d : List (String × PeerEntry)}
    (h : dictContains k d = false) : countKey k d = 0 := by
  induction d with
  | nil => rfl
  | cons e rest ih =>
    simp only [dictContains, List.any_cons, Bool.or_eq_false_iff] at h
    simp only [countKey, List.filter_cons, h.1]
    exact ih h.2

theorem countKey_of_mem_nodup {k : String} {d : List (String × PeerEntry)}
    (hnd : keysNodup d) (h : dictContains k d = true) : countKey k d = 1 := by
  induction d with
  | nil => simp [dictContains] at h
  | cons e rest ih =>
    simp only [keysNodup, List.map_cons, List.nodup_cons] at hnd
    by_cases he : (e.1 == k) = true
    · have hk : e.1 = k := by simpa using he
      have hrest : dictContains k rest = false := by
        rw [← Bool.not_eq_true]
        intro hmem
        exact hnd.1 (hk ▸ dictContains_iff.mp hmem)
      have hz := countKey_eq_zero hrest
      simp only [countKey, List.filter_cons, he, if_true, List.length_cons] at hz ⊢
      omega
    · have he' : (e.1 == k) = false := by simpa using he
      simp only [dictContains, List.any_cons, he', Bool.false_or] at h
      simp only [countKey, List.filter_cons, he']
      exact ih hnd.2 h

theorem not_mem_setDiscard (x : String) (l : List String) :
    x ∉ setDiscard x l := by
  simp [setDiscard, List.mem_filter]

/-! ## C1 / C4 / C3 / C10 : tie-breaking, dedup, lifecycle -/

theorem fired_noskip {myIP peerIP : String} {s : AppState}
    (h : (on_peer_found myIP peerIP s).2 = true) :
    tieBreakSkip myIP peerIP = false := by
  by_cases hts : tieBreakSkip myIP peerIP
  · simp [on_peer_found, hts] at h
  · simpa using hts

theorem noskip_antisym {a b : String}
    (h1 : tieBreakSkip a b = false) (h2 : tieBreakSkip b a = false) : a = b := by
  rcases hpa : parseIPv4 a with _ | va <;> rcases hpb : parseIPv4 b with _ | vb <;>
    simp only [tieBreakSkip, hpa, hpb] at h1 h2
  · exact pyStrLt_asymm_eq h2 h1
  · exact pyStrLt_asymm_eq h2 h1
  · exact pyStrLt_asymm_eq h2 h1
  · simp only [decide_eq_false_iff_not, not_lt] at h1 h2
    have : va = vb := le_antisymm h1 h2
    subst this
    exact parseIPv4_inj hpa hpb

/-- C1: Tie-break symmetry — for any two nodes with distinct configured IPs,
if each node's `on_peer_found` receives the other's announcement, at most
one of the two schedules an outbound connection; a node whose IP is
numerically larger (both addresses parse as IPv4) — or string-larger when
either fails to parse — returns without initiating. -/
theorem c1_tiebreak_symmetry (a b : String) (sA sB : AppState) (hne : a ≠ b) :
    ¬((on_peer_found a b sA).2 = true ∧ (on_peer_found b a sB).2 = true) ∧
    (∀ va vb, parseIPv4 a = some va → parseIPv4 b = some vb → vb < va →
      on_peer_found a b sA = (sA, false)) ∧
    ((parseIPv4 a = none ∨ parseIPv4 b = none) → pyStrLt b a = true →
      on_peer_found a b sA = (sA, false)) := by
  refine ⟨?_, ?_, ?_⟩
  · rintro ⟨h1, h2⟩
    exact hne (noskip_antisym (fired_noskip h1) (fired_noskip h2))
  · intro va vb hva hvb hlt
    have hts : tieBreakSkip a b = true := by
      simp only [tieBreakSkip, hva, hvb]
      exact decide_eq_true hlt
    simp [on_peer_found, hts]
  · intro hn hlt
    have hts : tieBreakSkip a b = true := by
      rcases hn with hn | hn
      · rcases hpb : parseIPv4 b with _ | vb <;>
          simp only [tieBreakSkip, hn, hpb] <;> exact hlt
      · rcases hpa : parseIPv4 a with _ | va <;>
          simp only [tieBreakSkip, hpa, hn] <;> exact hlt
    simp [on_peer_found, hts]

/-- Witness for C1: nodes `10.0.0.1` and `10.0.0.2`, both with empty
registries, never both initiate. -/
theorem c1_witness :
    (("10.0.0.1" : String) ≠ "10.0.0.2") ∧
    ¬((on_peer_found "10.0.0.1" "10.0.0.2" ⟨[], []⟩).2 = true ∧
      (on_peer_found "10.0.0.2" "10.0.0.1" ⟨[], []⟩).2 = true) :=
  ⟨by decide,
    (c1_tiebreak_symmetry "10.0.0.1" "10.0.0.2" ⟨[], []⟩ ⟨[], []⟩ (by decide)).1⟩

theorem dedup_drop {myIP peerIP : String} {s : AppState}
    (h : dictContains peerIP s.peers = true ∨ peerIP ∈ s.connecting) :
    on_peer_found myIP peerIP s = (s, false) := by
  unfold on_peer_found
  by_cases hts : tieBreakSkip myIP peerIP
  · simp [hts]
  · have hcond :
        (dictContains peerIP s.peers || decide (peerIP ∈ s.connecting)) = true := by
      rcases h with h | h
      · simp [h]
      · simp [h]
    simp [hts, hcond]

theorem announceN_drop {myIP peerIP : String} {s : AppState}
    (h : dictContains peerIP s.peers = true ∨ peerIP ∈ s.connecting) :
    ∀ n, announceN myIP peerIP s n = (s, 0)
  | 0 => rfl
  | n + 1 => by
    simp [announceN, dedup_drop h, announceN_drop h n]

/-- C4: Dedup idempotence — delivering the same announcement `n` times while
the source IP already has a registry entry or is in the in-flight connecting
set leaves the registry state unchanged and schedules zero further
`connect_quic` tasks; whichever registration the IP holds stays unique: a
single dict entry when registered, a single in-flight marker while
connecting. -/
theorem c4_dedup_idempotent (myIP peerIP : String) (s : AppState) (n : Nat)
    (hnd : keysNodup s.peers) (hcd : s.connecting.Nodup)
    (hreg : dictContains peerIP s.peers = true ∨ peerIP ∈ s.connecting) :
    announceN myIP peerIP s n = (s, 0) ∧
    countKey peerIP s.peers = (if dictContains peerIP s.peers then 1 else 0) ∧
    (peerIP ∈ s.connecting → s.connecting.count peerIP = 1) := by
  refine ⟨announceN_drop hreg n, ?_, fun hm => List.count_eq_one_of_mem hcd hm⟩
  by_cases hc : dictContains peerIP s.peers
  · rw [if_pos hc]
    exact countKey_of_mem_nodup hnd hc
  · rw [if_neg hc]
    exact countKey_eq_zero (by simpa using hc)

/-- Witness for C4: a registry already holding `10.0.0.2`; three repeated
announcements change nothing and schedule nothing. -/
theorem c4_witness :
    keysNodup (AppState.mk [("10.0.0.2", ⟨Role.client, some "nodeB"⟩)] []).peers ∧
    (AppState.mk [("10.0.0.2", ⟨Role.client, some "nodeB"⟩)] []).connecting.Nodup ∧
    (dictContains "10.0.0.2"
        (AppState.mk [("10.0.0.2", ⟨Role.client, some "nodeB"⟩)] []).peers = true ∨
      "10.0.0.2" ∈ (AppState.mk [("10.0.0.2", ⟨Role.client, some "nodeB"⟩)] []).connecting) ∧
    (announceN "10.0.0.1" "10.0.0.2"
        (AppState.mk [("10.0.0.2", ⟨Role.client, some "nodeB"⟩)] []) 3 =
        (AppState.mk [("10.0.0.2", ⟨Role.client, some "nodeB"⟩)] [], 0) ∧
      countKey "10.0.0.2"
          (AppState.mk [("10.0.0.2", ⟨Role.client, some "nodeB"⟩)] []).peers =
        (if dictContains "10.0.0.2"
            (AppState.mk [("10.0.0.2", ⟨Role.client, some "nodeB"⟩)] []).peers
          then 1 else 0) ∧
      ("10.0.0.2" ∈ (AppState.mk [("10.0.0.2", ⟨Role.client, some "nodeB"⟩)] []).connecting →
        (AppState.mk [("10.0.0.2", ⟨Role.client, some "nodeB"⟩)] []).connecting.count
          "10.0.0.2" = 1)) :=
  ⟨by simp [keysNodup], List.nodup_nil, Or.inl (by decide),
    c4_dedup_idempotent "10.0.0.1" "10.0.0.2"
      (AppState.mk [("10.0.0.2", ⟨Role.client, some "nodeB"⟩)] []) 3
      (by simp [keysNodup]) List.nodup_nil (Or.inl (by decide))⟩

/-- C3 counterexample: an inbound link for `10.0.0.2` is admitted to the
registry; when the transport reports `ConnectionTerminated`, the
orchestrator has registered no disconnect callback
(`main_on_disconnect = none`, main.py lines 114-116), so the registry entry
is NOT removed — it is still present after the `Closed` transition. -/
theorem c3_counterexample :
    (on_server_connect "10.0.0.2" ⟨[], []⟩).peers =
      [("10.0.0.2", ⟨Role.server, some "Unknown"⟩)] ∧
    quic_event_terminated main_on_disconnect "10.0.0.2"
        (on_server_connect "10.0.0.2" ⟨[], []⟩) =
      on_server_connect "10.0.0.2" ⟨[], []⟩ ∧
    dictContains "10.0.0.2"
      (quic_event_terminated main_on_disconnect "10.0.0.2"
        (on_server_connect "10.0.0.2" ⟨[], []⟩)).peers = true :=
  ⟨by decide, rfl, by decide⟩

/-- C3 amended: on `ConnectionTerminated` the protocol invokes the
class-level disconnect callback only when one is registered; the
orchestrator registers none, so the `Closed` transition removes nothing
from the registry — established links that terminate leave their entries
behind. -/
theorem c3_amended_no_removal (ip : String) (s : AppState)
    (cb : String → AppState → AppState) :
    quic_event_terminated main_on_disconnect ip s = s ∧
    quic_event_terminated (some cb) ip s = cb ip s :=
  ⟨rfl, rfl⟩

/-- C10 counterexample: `10.0.0.1` discovers `10.0.0.2` and connects
successfully; after the connection closes, `connect_quic` has discarded the
IP from the in-flight set, yet a later announcement for the same peer is
dropped (no fresh attempt) because the successful run left a registry entry
that nothing removes. -/
theorem c10_counterexample :
    (on_peer_found "10.0.0.1" "10.0.0.2" ⟨[], []⟩).2 = true ∧
    "10.0.0.2" ∉ (connect_quic "10.0.0.2" (some "nodeB")
      ConnectOutcome.established ⟨[], []⟩).connecting ∧
    (on_peer_found "10.0.0.1" "10.0.0.2"
      (connect_quic "10.0.0.2" (some "nodeB")
        ConnectOutcome.established ⟨[], []⟩)).2 = false :=
  ⟨by decide, by decide, by decide⟩

/-- C10 amended: every completion of `connect_quic` removes the IP from the
in-flight connecting set (the `finally` clause), and after a failed or
timed-out attempt a later announcement does schedule a fresh attempt; only
after a successful connection that later closed does the leaked registry
entry keep dropping announcements (see C3). -/
theorem c10_amended_cleanup (myIP ip : String) (h : Option String)
    (o : ConnectOutcome) (s : AppState)
    (hnp : dictContains ip s.peers = false)
    (htb : tieBreakSkip myIP ip = false) :
    ip ∉ (connect_quic ip h o s).connecting ∧
    (o = ConnectOutcome.failed →
      (on_peer_found myIP ip (connect_quic ip h o s)).2 = true) := by
  constructor
  · cases o <;> exact not_mem_setDiscard _ _
  · rintro rfl
    have hp : (connect_quic ip h ConnectOutcome.failed s).peers = s.peers := rfl
    have hc : ip ∉ (connect_quic ip h ConnectOutcome.failed s).connecting :=
      not_mem_setDiscard _ _
    simp [on_peer_found, htb, hp, hnp, hc]

/-- Witness for C10 amended: a failed attempt to `10.0.0.2` cleans the
in-flight set and a repeated announcement schedules a fresh attempt. -/
theorem c10_witness :
    dictContains "10.0.0.2" (AppState.mk [] []).peers = false ∧
    tieBreakSkip "10.0.0.1" "10.0.0.2" = false ∧
    ("10.0.0.2" ∉ (connect_quic "10.0.0.2" none
        ConnectOutcome.failed ⟨[], []⟩).connecting ∧
      (ConnectOutcome.failed = ConnectOutcome.failed →
        (on_peer_found "10.0.0.1" "10.0.0.2"
          (connect_quic "10.0.0.2" none ConnectOutcome.failed ⟨[], []⟩)).2 = true)) :=
  ⟨by decide, by decide,
    c10_amended_cleanup "10.0.0.1" "10.0.0.2" none ConnectOutcome.failed
      ⟨[], []⟩ (by decide) (by decide)⟩

/-! ## Lane protocol (src/protocol/packet_def.py, quic_engine.py)

Frames are byte lists (`Nat` values < 256).  The 1-byte type tag values are
the `PacketType` enum of packet_def.py lines 9-25.
-/

/-- packet_def.py `PacketType` (IntEnum). -/
inductive PacketType where
  | PING
  | PONG
  | TELEMETRY
  | MSG_TEXT
  | MSG_ACK
  | AV_DATA
  | FILE_START
  | FILE_DATA
  | FILE_END
deriving DecidableEq, Repr

/-- The wire value of each `PacketType` (packet_def.py lines 11-25). -/
def PacketType.toByte : PacketType → Nat
  | .PING => 0x01
  | .PONG => 0x02
  | .TELEMETRY => 0x03
  | .MSG_TEXT => 0x10
  | .MSG_ACK => 0x11
  | .AV_DATA => 0x20
  | .FILE_START => 0x30
  | .FILE_DATA => 0x31
  | .FILE_END => 0x32

/-- Recover a `PacketType` from its wire byte. -/
def PacketType.ofByte (b : Nat) : Option PacketType :=
  if b = 0x01 then some .PING
  else if b = 0x02 then some .PONG
  else if b = 0x03 then some .TELEMETRY
  else if b = 0x10 then some .MSG_TEXT
  else if b = 0x11 then some .MSG_ACK
  else if b = 0x20 then some .AV_DATA
  else if b = 0x30 then some .FILE_START
  else if b = 0x31 then some .FILE_DATA
  else if b = 0x32 then some .FILE_END
  else none

/-- packet_def.py `get_lane_from_stream_id`: `stream_id % 4`. -/
def get_lane_from_stream_id (stream_id : Nat) : Nat := stream_id % 4

/-- Frame encoding as performed by the source: prepend the 1-byte type tag
(quic_engine.py line 127 `bytes([PacketType.MSG_TEXT]) + msg.encode(...)`,
line 137 `bytes([PacketType.TELEMETRY]) + data`). -/
def encodeFrame (t : PacketType) (payload : List Nat) : List Nat :=
  t.toByte :: payload

/-- The spec's decode failure on an empty buffer. -/
inductive FrameError where
  | MalformedFrame
deriving DecidableEq, Repr

/-- Modelled from the spec: `decodeFrame(bytes) -> (type, payload)` is not a
named function in the source (its callers split frames inline, e.g.
quic_engine.py lines 79-95 take `data[0]` as the type and `data[1:]` as the
payload); per the spec contract it returns the leading byte as the type tag
and the rest as the payload, and fails with `MalformedFrame` on an empty
buffer. -/
def decodeFrame : List Nat → Except FrameError (Nat × List Nat)
  | [] => .error .MalformedFrame
  | b :: rest => .ok (b, rest)

/-- C5: Frame round-trip — `encodeFrame` prepends exactly the 1-byte type
tag, `decodeFrame` of a non-empty buffer returns the leading byte and the
rest, so decoding an encoded frame recovers the `PacketType` and the
payload for every valid type and payloads of any length (0, 1, N);
decoding the empty buffer fails with `MalformedFrame`. -/
theorem c5_frame_roundtrip (t : PacketType) (payload : List Nat) :
    encodeFrame t payload = t.toByte :: payload ∧
    decodeFrame (encodeFrame t payload) = .ok (t.toByte, payload) ∧
    PacketType.ofByte t.toByte = some t ∧
    decodeFrame [] = .error FrameError.MalformedFrame := by
  refine ⟨rfl, rfl, ?_, rfl⟩
  cases t <;> rfl

/-! ## Heartbeat behaviour (quic_client.py, quic_server.py, quic_engine.py) -/

/-- The bytes the wired client sends as its heartbeat: `b'PING'`
(quic_client.py line 96). -/
def client_heartbeat_payload : List Nat := [0x50, 0x49, 0x4E, 0x47]

/-- quic_client.py line 93: `await asyncio.sleep(2)` between heartbeats. -/
def heartbeat_interval_seconds : Nat := 2

/-- Connection phase of the client keep-alive loop. -/
inductive LinkPhase where
  | established
  | closed
deriving DecidableEq, Repr

/-- One iteration of the client keep-alive loop (quic_client.py lines
92-100): while connected, send the heartbeat; a transport-level send error
breaks the loop, after which the `finally` (lines 108-110) clears
`connected` and the connection context closes — modelled as `closed`. -/
def heartbeat_tick (phase : LinkPhase) (sendOk : Bool) : LinkPhase :=
  match phase with
  | .closed => .closed
  | .established => if sendOk then .established else .closed

/-- quic_server.py `quic_event_received`, `StreamDataReceived` branch (lines
37-49): stream 0 (heartbeat) data is ignored (`pass`), stream 4 (chat) data
is handed to the message callback; no frame is ever sent in response.
Result: (data delivered to the message callback, frames sent back). -/
def server_stream_rx (stream_id : Nat) (data : List Nat) :
    Option (List Nat) × List (Nat × List Nat) :=
  if stream_id = 0 then (none, [])
  else if stream_id = 4 then (some data, [])
  else (none, [])

/-- quic_engine.py `HampterNode._handle_heartbeat` (lines 77-97): a frame
whose tag byte is `PING` gets an immediate `PONG` on the same stream; `PONG`
is only logged; `TELEMETRY` hands the rest to the registered handler.
Result: (frames sent, telemetry delivered to the handler). -/
def handle_heartbeat (hasTelemHandler : Bool) (data : List Nat)
    (stream_id : Nat) : List (Nat × List Nat) × Option (List Nat) :=
  match data with
  | [] => ([], none)
  | b :: rest =>
    if b = 0x01 then ([(stream_id, [0x02])], none)
    else if b = 0x02 then ([], none)
    else if b = 0x03 then ([], if hasTelemHandler then some rest else none)
    else ([], none)

/-- C6 counterexample: the wired server receives the client's heartbeat
bytes on the heartbeat stream (stream 0) and sends nothing back — no PONG
reply is ever produced by the production receive path. -/
theorem c6_counterexample :
    server_stream_rx 0 client_heartbeat_payload = (none, []) ∧
    server_stream_rx 0 (encodeFrame PacketType.PING []) = (none, []) :=
  ⟨rfl, rfl⟩

/-- C6 amended: while established the client sends its heartbeat every 2
seconds and a transport-level send error forces the connection to `closed`;
the wired server ignores heartbeat-stream data entirely (no PONG); only the
alternative `HampterNode` engine replies PONG to a PING-tagged frame. -/
theorem c6_amended_heartbeat (d rest : List Nat) (sid : Nat) (ht : Bool) :
    heartbeat_interval_seconds = 2 ∧
    heartbeat_tick LinkPhase.established false = LinkPhase.closed ∧
    heartbeat_tick LinkPhase.established true = LinkPhase.established ∧
    server_stream_rx 0 d = (none, []) ∧
    handle_heartbeat ht (0x01 :: rest) sid = ([(sid, [0x02])], none) :=
  ⟨rfl, rfl, rfl, rfl, rfl⟩

/-! ## TLS / QUIC trust configuration (quic_client.py, quic_server.py, security.py)

Models of the configuration objects the core builds.  Library defaults
(Python `ssl.create_default_context`, aioquic `QuicConfiguration`) are
modelled per their documented semantics; each default is noted where used.
-/

/-- Python `ssl` verify modes. -/
inductive VerifyMode where
  | certNone
  | certOptional
  | certRequired
deriving DecidableEq, Repr

/-- The fields of an aioquic `QuicConfiguration` the core touches.
`verify_mode` is `None` until assigned (aioquic default). -/
structure QuicConfigModel where
  is_client : Bool
  verify_mode : Option VerifyMode
  cafile : Option String
  certfile : Option String
  keyfile : Option String
deriving DecidableEq, Repr

/-- aioquic `QuicConfiguration(is_client=...)`: `verify_mode` unset, no CA,
no certificate chain loaded. -/
def quicConfigurationDefault (isClient : Bool) : QuicConfigModel :=
  { is_client := isClient, verify_mode := none, cafile := none,
    certfile := none, keyfile := none }

/-- aioquic TLS semantics: an unset `verify_mode` means `CERT_REQUIRED` for
clients and `CERT_NONE` for servers. -/
def effectiveVerifyMode (c : QuicConfigModel) : VerifyMode :=
  c.verify_mode.getD (if c.is_client then .certRequired else .certNone)

/-- quic_client.py lines 41-43: `QuicConfiguration(is_client=True)` followed
by `self.config.verify_mode = ssl.CERT_NONE` ("Force aioquic to ignore
self-signed cert issues"); no CA is ever loaded. -/
def quic_client_config : QuicConfigModel :=
  { quicConfigurationDefault true with verify_mode := some .certNone }

/-- quic_server.py lines 68-71 `build_quic_config`: a server configuration
that loads only the node's own certificate chain — no CA, no explicit
`verify_mode`. -/
def build_quic_config (cert key : String) : QuicConfigModel :=
  { quicConfigurationDefault false with
      certfile := some cert, keyfile := some key }

/-- Purpose argument of `ssl.create_default_context`. -/
inductive SSLPurpose where
  | serverAuth
  | clientAuth
deriving DecidableEq, Repr

/-- The fields of a Python `ssl.SSLContext` the core touches.
`minimum_tls_version` is 12 for TLS 1.2, 13 for TLS 1.3. -/
structure SSLContextModel where
  verify_mode : VerifyMode
  check_hostname : Bool
  minimum_tls_version : Nat
  ca_loaded : Option String
  own_cert : Option (String × String)
deriving DecidableEq, Repr

/-- Python `ssl.create_default_context` defaults: `Purpose.SERVER_AUTH`
(context for a client) gives `CERT_REQUIRED` with hostname checking;
`Purpose.CLIENT_AUTH` (context for a server) gives `CERT_NONE` without
hostname checking.  Minimum TLS version defaults to 1.2. -/
def create_default_context : SSLPurpose → SSLContextModel
  | .serverAuth =>
    { verify_mode := .certRequired, check_hostname := true,
      minimum_tls_version := 12, ca_loaded := none, own_cert := none }
  | .clientAuth =>
    { verify_mode := .certNone, check_hostname := false,
      minimum_tls_version := 12, ca_loaded := none, own_cert := none }

/-- security.py `HampterSecurity.get_ssl_context` (lines 13-40): for
`CLIENT_AUTH` (we are the server) force `CERT_REQUIRED`; for `SERVER_AUTH`
(we are the client) disable hostname checking; then load the node identity,
anchor trust to the CA file, and enforce TLS 1.3 minimum. -/
def get_ssl_context (cert key ca : String) (purpose : SSLPurpose) :
    SSLContextModel :=
  let ctx : SSLContextModel :=
    match purpose with
    | .clientAuth =>
      { create_default_context .clientAuth with
          verify_mode := VerifyMode.certRequired }
    | .serverAuth =>
      { create_default_context .serverAuth with check_hostname := false }
  { ctx with
      own_cert := some (cert, key)
      ca_loaded := some ca
      minimum_tls_version := 13 }

/-- C2 counterexample: on the wired QUIC path no side validates the peer
against the CA — the client forces `CERT_NONE` and the server configuration
loads no CA and effectively requests no client certificate.  This refutes
the claim that both sides of every connection perform CA-anchored
certificate validation. -/
theorem c2_counterexample :
    effectiveVerifyMode quic_client_config = VerifyMode.certNone ∧
    quic_client_config.cafile = none ∧
    (build_quic_config "cert.pem" "key.pem").cafile = none ∧
    effectiveVerifyMode (build_quic_config "cert.pem" "key.pem") =
      VerifyMode.certNone :=
  ⟨rfl, rfl, rfl, rfl⟩

/-- C2 amended: only the standalone `HampterSecurity.get_ssl_context`
realises the advertised trust model — peer certificates required, hostname
checking disabled, TLS 1.3 minimum, trust anchored solely to the shared
CA — while the wired QUIC client disables certificate verification
(`CERT_NONE`) and the wired server configuration loads no CA at all. -/
theorem c2_amended_trust_config (cert key ca : String) :
    (get_ssl_context cert key ca SSLPurpose.clientAuth).verify_mode =
      VerifyMode.certRequired ∧
    (get_ssl_context cert key ca SSLPurpose.serverAuth).verify_mode =
      VerifyMode.certRequired ∧
    (get_ssl_context cert key ca SSLPurpose.clientAuth).check_hostname = false ∧
    (get_ssl_context cert key ca SSLPurpose.serverAuth).check_hostname = false ∧
    (get_ssl_context cert key ca SSLPurpose.clientAuth).minimum_tls_version = 13 ∧
    (get_ssl_context cert key ca SSLPurpose.serverAuth).minimum_tls_version = 13 ∧
    (get_ssl_context cert key ca SSLPurpose.clientAuth).ca_loaded = some ca ∧
    (get_ssl_context cert key ca SSLPurpose.serverAuth).ca_loaded = some ca ∧
    effectiveVerifyMode quic_client_config = VerifyMode.certNone ∧
    (build_quic_config cert key).cafile = none :=
  ⟨rfl, rfl, rfl, rfl, rfl, rfl, rfl, rfl, rfl, rfl⟩

/-! ## Discovery datagram handling (src/networking/discovery.py)

`DiscoveryProtocol.datagram_received` (lines 40-55) runs entirely inside
`try`/`except Exception: pass`.  The stdlib collaborator
`json.loads(payload)` followed by `info.get('hostname')` is abstracted as a
`decode` function that either raises (`Except.error`, covering invalid
JSON and non-dict results) or yields the optional hostname field.  The
result of the handler is the callback invocation it performs, if any:
`some (hostnameField, sourceIP)`.
-/

/-- config.py line 13: `BEACON_MAGIC = b'HAMPTER:'`. -/
def BEACON_MAGIC : List Nat := [0x48, 0x41, 0x4D, 0x50, 0x54, 0x45, 0x52, 0x3A]

/-- Python `bytes.startswith`: the first argument is a leading run of the
second. -/
def hasMagic : List Nat → List Nat → Bool
  | [], _ => true
  | _ :: _, [] => false
  | m :: ms, d :: ds => m == d && hasMagic ms ds

/-- The `try` body of `datagram_received` (discovery.py lines 41-53):
check the magic, decode the JSON payload, self-filter on the local
hostname, otherwise invoke the callback.  An `Except.error` is an exception
escaping the body. -/
def datagram_body (decode : List Nat → Except String (Option String))
    (localHostname : String) (data : List Nat) (srcIP : String) :
    Except String (Option (Option String × String)) :=
  if hasMagic BEACON_MAGIC data then
    match decode (data.drop BEACON_MAGIC.length) with
    | .error e => .error e
    | .ok h => if h = some localHostname then .ok none else .ok (some (h, srcIP))
  else .ok none

/-- discovery.py `datagram_received` (lines 40-55): the body wrapped in
`except Exception: pass` — any exception from parsing yields no callback
and no propagated error. -/
def datagram_received (decode : List Nat → Except String (Option String))
    (localHostname : String) (data : List Nat) (srcIP : String) :
    Option (Option String × String) :=
  match datagram_body decode localHostname data srcIP with
  | .ok r => r
  | .error _ => none

/-- C7: Self-filter — any datagram carrying the magic whose decoded
hostname field equals the local hostname produces no callback invocation,
whatever the rest of the payload and whatever decoder behaviour produced
that hostname. -/
theorem c7_self_filter (decode : List Nat → Except String (Option String))
    (localHostname : String) (data : List Nat) (srcIP : String)
    (hm : hasMagic BEACON_MAGIC data = true)
    (hd : decode (data.drop BEACON_MAGIC.length) =
      Except.ok (some localHostname)) :
    datagram_received decode localHostname data srcIP = none := by
  unfold datagram_received datagram_body
  rw [hm, if_pos rfl, hd]
  simp

/-- Witness for C7: a well-formed beacon naming the local host `nodeA` is
dropped. -/
theorem c7_witness :
    hasMagic BEACON_MAGIC (BEACON_MAGIC ++ [0x68, 0x69]) = true ∧
    (fun _ : List Nat => Except.ok (ε := String) (some "nodeA"))
        ((BEACON_MAGIC ++ [0x68, 0x69]).drop BEACON_MAGIC.length) =
      Except.ok (some "nodeA") ∧
    datagram_received (fun _ => Except.ok (some "nodeA")) "nodeA"
      (BEACON_MAGIC ++ [0x68, 0x69]) "10.0.0.2" = none :=
  ⟨by decide, rfl,
    c7_self_filter (fun _ => Except.ok (some "nodeA")) "nodeA"
      (BEACON_MAGIC ++ [0x68, 0x69]) "10.0.0.2" (by decide) rfl⟩

/-- C8: Malformed-datagram tolerance — a datagram without the magic, or
whose payload makes the JSON decode raise, produces no callback and no
escaping exception; in the bad-magic case the body does not even raise
internally. -/
theorem c8_malformed_tolerance (decode : List Nat → Except String (Option String))
    (localHostname : String) (data : List Nat) (srcIP : String) (e : String)
    (hbad : hasMagic BEACON_MAGIC data = false ∨
      decode (data.drop BEACON_MAGIC.length) = Except.error e) :
    datagram_received decode localHostname data srcIP = none ∧
    (hasMagic BEACON_MAGIC data = false →
      datagram_body decode localHostname data srcIP = Except.ok none) := by
  constructor
  · rcases hbad with hb | hb
    · unfold datagram_received datagram_body
      rw [hb]
      simp
    · unfold datagram_received datagram_body
      by_cases hm : hasMagic BEACON_MAGIC data
      · rw [if_pos hm, hb]
      · simp [hm]
  · intro hb
    unfold datagram_body
    rw [hb]
    simp

/-- Witness for C8: a datagram with the wrong prefix, and a magic-prefixed
datagram whose payload fails to parse, are both silently dropped. -/
theorem c8_witness :
    (hasMagic BEACON_MAGIC [0x00] = false ∨
      (fun _ : List Nat => Except.error (α := Option String) "bad json")
        (([0x00] : List Nat).drop BEACON_MAGIC.length) = Except.error "bad json") ∧
    (datagram_received (fun _ => Except.error "bad json") "nodeA" [0x00] "ip" =
        none ∧
      (hasMagic BEACON_MAGIC [0x00] = false →
        datagram_body (fun _ => Except.error "bad json") "nodeA" [0x00] "ip" =
          Except.ok none)) ∧
    datagram_received (fun _ => Except.error "bad json") "nodeA"
      (BEACON_MAGIC ++ [0x7B]) "ip" = none :=
  ⟨Or.inl (by decide),
    c8_malformed_tolerance (fun _ => Except.error "bad json") "nodeA" [0x00]
      "ip" "bad json" (Or.inl (by decide)),
    (c8_malformed_tolerance (fun _ => Except.error "bad json") "nodeA"
      (BEACON_MAGIC ++ [0x7B]) "ip" "bad json" (Or.inr rfl)).1⟩

/-! ## Broadcast (main.py `HamperLinkApp.handle_input`, lines 183-215)

Each registry entry's `send_message` may raise; the loop catches the
exception per peer and logs it.  A peer's send behaviour is modelled as a
`String → Bool` predicate (`true` = the send succeeds for that message).
-/

/-- The broadcast loop (main.py lines 207-213): iterate the registry
snapshot in order; a successful send lands the peer IP in the first list, a
caught-and-logged failure lands it in the second. -/
def sendToAll (msg : String) :
    List (String × (String → Bool)) → List String × List String
  | [] => ([], [])
  | (ip, send) :: rest =>
    let r := sendToAll msg rest
    if send msg then (ip :: r.1, r.2) else (r.1, ip :: r.2)

/-- Outcome of `handle_input` (main.py lines 183-215). -/
inductive InputResult where
  | ignoredEmpty
  | cleared
  | helpShown
  | unknownCommand (msg : String)
  | noPeers
  | broadcasted (sent failed : List String)
deriving DecidableEq, Repr

/-- main.py `handle_input`: strip, ignore empty input, handle `/clear`,
`/help` and unknown commands locally, report when no links exist, otherwise
broadcast to every registry entry. -/
def handle_input (raw : String)
    (peers : List (String × (String → Bool))) : InputResult :=
  let msg := raw.trim
  if msg = "" then .ignoredEmpty
  else if msg.startsWith "/" then
    let cmd := (msg.drop 1).toLower
    if cmd = "clear" then .cleared
    else if cmd = "help" then .helpShown
    else .unknownCommand msg
  else if peers.isEmpty then .noPeers
  else .broadcasted (sendToAll msg peers).1 (sendToAll msg peers).2

/-- C9: Broadcast partial-failure isolation — for every registry snapshot
and message, the broadcast attempts the send to every entry: the successes
are exactly the entries whose send succeeds, the logged failures exactly
those whose send throws, in registry order, and together they exhaust the
registry; no failure aborts the loop. -/
theorem c9_broadcast_isolation (msg : String)
    (peers : List (String × (String → Bool))) :
    (sendToAll msg peers).1 =
      (peers.filter (fun p => p.2 msg)).map Prod.fst ∧
    (sendToAll msg peers).2 =
      (peers.filter (fun p => !(p.2 msg))).map Prod.fst ∧
    (sendToAll msg peers).1.length + (sendToAll msg peers).2.length =
      peers.length := by
  induction peers with
  | nil => exact ⟨rfl, rfl, rfl⟩
  | cons e rest ih =>
    obtain ⟨ih1, ih2, ih3⟩ := ih
    by_cases hs : e.2 msg
    · refine ⟨?_, ?_, ?_⟩
      · simp [sendToAll, hs, List.filter_cons, ih1]
      · simp [sendToAll, hs, List.filter_cons, ih2]
      · simp only [sendToAll, hs, if_true, List.length_cons]
        omega
    · have hs' : e.2 msg = false := by simpa using hs
      refine ⟨?_, ?_, ?_⟩
      · simp [sendToAll, hs', List.filter_cons, ih1]
      · simp [sendToAll, hs', List.filter_cons, ih2]
      · simp only [sendToAll, hs', Bool.false_eq_true, if_false, List.length_cons]
        omega
